import Mathlib

/-!
# go-outbox: the retry engine and the dispatcher

A shallow embedding of `retry/retry.go` and of `dispatcher.go` (the three
loops and `Run`), with the properties of the retry engine and of the
dispatcher's control flow stated and proved over it.

Modelling conventions

* A Go `error` interface value is a term of `GoError`; the nil interface is
  the constructor `GoError.nil`.  A chain is what repeated `Unwrap` walks.
* A closure `func() error` that owns mutable state is a state-passing
  function `σ → GoError × σ`.
* `uint` is a natural number below `uintSize`; the one increment of the
  source is reduced modulo `uintSize`.
* The `for` loop of `Do` is unbounded in the source; the model takes a
  fuel argument and returns `none` when it runs out.
* A dispatcher loop is run against what it meets: the cases its successive
  `select`s take, the number of values the error channel takes from it,
  and its stop channel.  A send or a receive that cannot complete leaves
  the loop, or the goroutine, where it blocks.
-/

namespace Outbox

/-! ## Errors -/

/-- A Go `error` value, seen through what `errors.As` and `errors.Unwrap`
observe of it.  `plain` is an error without an `Unwrap` method
(`errors.New`, `io.EOF`); `wrap` is a wrapper of another package with a
single-error `Unwrap` and no `As` method (`fmt.Errorf` with one `%w`);
`retryable err` is a `*retryableError` with field `err`;
`unrecoverable err` is an `unrecoverableError` with embedded `error`. -/
inductive GoError where
  | nil : GoError
  | plain (id : Nat) : GoError
  | wrap (id : Nat) (inner : GoError) : GoError
  | retryable (err : GoError) : GoError
  | unrecoverable (err : GoError) : GoError
  deriving DecidableEq

/-- The struct `retryableError` of retry.go. -/
structure retryableError where
  err : GoError
  deriving DecidableEq

/-- Function `RetryableError` of retry.go: nil stays nil, any other error is put in
a fresh `retryableError`. -/
def RetryableError (err : GoError) : GoError :=
  if err = GoError.nil then GoError.nil else GoError.retryable err

/-- Method `(*retryableError).Unwrap` of retry.go. -/
def retryableError.Unwrap (e : retryableError) : GoError :=
  e.err

/-- Function `Unrecoverable` of retry.go: wraps unconditionally, nil included. -/
def Unrecoverable (err : GoError) : GoError :=
  GoError.unrecoverable err

/-- Function `errors.Unwrap` of the standard library: the result of the value's
`Unwrap` method, nil when it has none. -/
def errorsUnwrap : GoError → GoError
  | GoError.nil => GoError.nil
  | GoError.plain _ => GoError.nil
  | GoError.wrap _ inner => inner
  | GoError.retryable err => err
  | GoError.unrecoverable err => err

/-- Call `errors.As(err, &rErr)` of the standard library at the target type
`*retryableError`: the first value of that type on the chain of `err`,
`none` when the chain ends without one. -/
def errorsAs : GoError → Option retryableError
  | GoError.nil => none
  | GoError.plain _ => none
  | GoError.wrap _ inner => errorsAs inner
  | GoError.retryable err => some ⟨err⟩
  | GoError.unrecoverable err => errorsAs err

/-! ## Configuration -/

/-- Number of values of the Go type `uint` on a 64-bit platform. -/
def uintSize : Nat := 2 ^ 64

/-- The struct `config` of retry.go. -/
structure config where
  maxAttempts : Nat
  deriving DecidableEq

/-- The type `Option` of retry.go, `func(*config)`. -/
abbrev Option' := config → config

/-- Function `WithMaxAttempts` of retry.go. -/
def WithMaxAttempts (attempts : Nat) : Option' :=
  fun c => { c with maxAttempts := attempts }

/-- Function `MaxAttempts` of retry.go. -/
def MaxAttempts (attempts : Nat) : Option' :=
  fun c => { c with maxAttempts := attempts }

/-- Function `newDefaultConfig` of retry.go. -/
def newDefaultConfig : config :=
  { maxAttempts := 3 }

/-- Function `next` of retry.go: the interval is always 0, and `shouldStop` is set
when the attempt count has reached the maximum. -/
def next (attempt : Nat) (conf : config) : Int × Bool :=
  (0, decide (attempt ≥ conf.maxAttempts))

/-! ## The retry loop -/

/-- The type `RetryableFunc` of retry.go, a closure over state `σ`. -/
abbrev RetryableFunc (σ : Type) := σ → GoError × σ

/-- What a run of `Do` leaves behind: the returned error, the errors that
the invocations of the unit of work returned, in order (a ghost log; the
tests count invocations in their closures), and the state of the
closure. -/
structure DoResult (σ : Type) where
  err : GoError
  trace : List GoError
  state : σ
  deriving DecidableEq

/-- Number of times the unit of work was invoked. -/
def DoResult.calls {σ : Type} (r : DoResult σ) : Nat :=
  r.trace.length

/-- The `for` loop of `Do` in retry.go, from the state `s` of the closure,
the value `attempt` of the loop variable and the log `trace` of the
invocations made so far. -/
def DoLoop {σ : Type} (f : RetryableFunc σ) (conf : config) :
    Nat → σ → Nat → List GoError → Option (DoResult σ)
  | 0, _, _, _ => none
  | fuel + 1, s, attempt, trace =>
    let r := f s
    if r.1 = GoError.nil then
      some ⟨GoError.nil, trace ++ [r.1], r.2⟩
    else
      match errorsAs r.1 with
      | none => some ⟨r.1, trace ++ [r.1], r.2⟩
      | some rErr =>
        let attempt1 := (attempt + 1) % uintSize
        if (next attempt1 conf).2 = true then
          some ⟨rErr.Unwrap, trace ++ [r.1], r.2⟩
        else
          DoLoop f conf fuel r.2 attempt1 (trace ++ [r.1])

/-- The first lines of `Do` in retry.go: the default configuration with
the options applied in order. -/
def applyOpts (opts : List Option') : config :=
  opts.foldl (fun c o => o c) newDefaultConfig

/-- Function `Do` of retry.go: the configuration is built, then the loop runs from
attempt 0. -/
def Do {σ : Type} (fuel : Nat) (f : RetryableFunc σ) (s : σ) (opts : List Option') :
    Option (DoResult σ) :=
  DoLoop f (applyOpts opts) fuel s 0 []

/-! ## Talking about the calls of a unit of work -/

/-- State of the closure after `i` invocations from `s`. -/
def stateAfter {σ : Type} (f : RetryableFunc σ) (s : σ) : Nat → σ
  | 0 => s
  | i + 1 => stateAfter f (f s).2 i

/-- Error returned by invocation number `i + 1` of the closure from `s`. -/
def callResult {σ : Type} (f : RetryableFunc σ) (s : σ) (i : Nat) : GoError :=
  (f (stateAfter f s i)).1

/-- An error is marked retryable when `errors.As` finds a
`*retryableError` on its chain. -/
def isRetryable (e : GoError) : Bool :=
  (errorsAs e).isSome

/-- A unit of work that returns the same error on every call. -/
def always (e : GoError) : RetryableFunc Unit :=
  fun _ => (e, ())

/-- A unit of work that returns the errors of a list one call after the
other, and nil once the list is used up. -/
def script : RetryableFunc (List GoError)
  | [] => (GoError.nil, [])
  | e :: rest => (e, rest)

/-! ## The dispatcher loops -/

/-- The struct `RetrialPolicy` of dispatcher.go. -/
structure RetrialPolicy where
  MaxSendAttemptsEnabled : Bool
  MaxSendAttempts : Nat
  deriving DecidableEq

/-- The struct `DispatcherSettings` of dispatcher.go; a `time.Duration` is an integer
number of nanoseconds. -/
structure DispatcherSettings where
  ProcessInterval : Int
  LockCheckerInterval : Int
  MaxLockTimeDuration : Int
  CleanupWorkerInterval : Int
  RetrialPolicy : RetrialPolicy
  MessagesRetentionDuration : Int
  deriving DecidableEq

/-- The interface `processor` of dispatcher.go over a store state `σ`. -/
structure processor (σ : Type) where
  ProcessRecords : σ → GoError × σ

/-- The interface `unlocker` of dispatcher.go over a store state `σ`. -/
structure unlocker (σ : Type) where
  UnlockExpiredMessages : σ → GoError × σ

/-- The interface `cleaner` of dispatcher.go over a store state `σ`. -/
structure cleaner (σ : Type) where
  RemoveExpiredMessages : σ → GoError × σ

/-- The struct `Dispatcher` of dispatcher.go. -/
structure Dispatcher (σ : Type) where
  recordProcessor : processor σ
  recordUnlocker : unlocker σ
  recordCleaner : cleaner σ
  settings : DispatcherSettings

/-- The case that a `select` of a loop takes: `<-ticker.C` or
`<-doneChan`. -/
inductive SelectCase where
  | tick : SelectCase
  | done : SelectCase
  deriving DecidableEq

/-- A Go channel of `struct{}` values, seen through what a send and a
receive observe of it: the capacity of its buffer, the number of values a
receiver can take from it now, and whether it has been closed. -/
structure Chan where
  cap : Nat
  len : Nat
  closed : Bool
  deriving DecidableEq

/-- The call `make(chan struct{}, cap)`: an open channel with nothing in
it. -/
def Chan.make (cap : Nat) : Chan :=
  ⟨cap, 0, false⟩

/-- The statement `c <- struct{}{}` on an open channel that no receiver is
waiting on: it completes when the buffer has room and blocks (`none`)
when it has none. -/
def Chan.send (c : Chan) : Option Chan :=
  if c.len < c.cap then some { c with len := c.len + 1 } else none

/-- The expression `<-c`: it takes a value that is there, returns at once
on a closed channel that is empty, and blocks (`none`) otherwise. -/
def Chan.recv (c : Chan) : Option Chan :=
  if 0 < c.len then some { c with len := c.len - 1 }
  else if c.closed = true then some c
  else none

/-- Where a loop stands: started and not yet at a blocking point, blocked
in `errChan <- err` because nothing takes the value, waiting in its
`select`, or returned. -/
inductive LoopStatus where
  | running : LoopStatus
  | sending : LoopStatus
  | waiting : LoopStatus
  | returned : LoopStatus
  deriving DecidableEq

/-- What one loop has done so far, as seen from outside: the store it
works on, the number of times it ran its unit of work (a ghost counter),
the values it sent on `errChan`, in order, the number of further values
that `errChan` takes (the room in its buffer plus the receives that are
still to come), and where the loop stands. -/
structure LoopRun (σ : Type) where
  store : σ
  cycles : Nat
  errChan : List GoError
  room : Nat
  status : LoopStatus
  deriving DecidableEq

/-- A loop that has just been started on the store `s`, with an error
channel that takes `room` values. -/
def LoopRun.start {σ : Type} (s : σ) (room : Nat) : LoopRun σ :=
  ⟨s, 0, [], room, LoopStatus.running⟩

/-- Function `time.NewTicker` of the standard library: it panics (`none`)
on a duration that is not positive.  The deliveries of the ticker's
channel are the `tick` entries of the list that a loop is run against. -/
def NewTicker (d : Int) : Option Unit :=
  if d ≤ 0 then none else some ()

/-- The `for` loop of `Dispatcher.runRecordProcessor` in dispatcher.go.  The
list holds the cases its successive `select`s take; when the list is used
up the loop is left waiting in its `select`.  A failing cycle sends its
error first, and stays in that send when `errChan` takes no more values;
the done case is taken only when `doneChan` has something to receive. -/
def processorLoop {σ : Type} (d : Dispatcher σ) (doneChan : Chan) :
    List SelectCase → LoopRun σ → LoopRun σ
  | selects, st =>
    let r := d.recordProcessor.ProcessRecords st.store
    if r.1 ≠ GoError.nil ∧ st.room = 0 then
      ⟨r.2, st.cycles + 1, st.errChan, st.room, LoopStatus.sending⟩
    else
      let errChan := if r.1 ≠ GoError.nil then st.errChan ++ [r.1] else st.errChan
      let room := if r.1 ≠ GoError.nil then st.room - 1 else st.room
      match selects with
      | [] => ⟨r.2, st.cycles + 1, errChan, room, LoopStatus.waiting⟩
      | SelectCase.tick :: rest =>
        processorLoop d doneChan rest ⟨r.2, st.cycles + 1, errChan, room, LoopStatus.running⟩
      | SelectCase.done :: _ =>
        if (doneChan.recv).isSome = true then
          ⟨r.2, st.cycles + 1, errChan, room, LoopStatus.returned⟩
        else
          ⟨r.2, st.cycles + 1, errChan, room, LoopStatus.waiting⟩

/-- Method `Dispatcher.runRecordProcessor` of dispatcher.go, started on the
store `s` with an error channel that takes `errRoom` values: the ticker is
created, then the loop runs. -/
def runRecordProcessor {σ : Type} (d : Dispatcher σ) (errRoom : Nat) (doneChan : Chan)
    (selects : List SelectCase) (s : σ) : Option (LoopRun σ) :=
  match NewTicker d.settings.ProcessInterval with
  | none => none
  | some _ => some (processorLoop d doneChan selects (LoopRun.start s errRoom))

/-- The `for` loop of `Dispatcher.runRecordUnlocker` in dispatcher.go. -/
def unlockerLoop {σ : Type} (d : Dispatcher σ) (doneChan : Chan) :
    List SelectCase → LoopRun σ → LoopRun σ
  | selects, st =>
    let r := d.recordUnlocker.UnlockExpiredMessages st.store
    if r.1 ≠ GoError.nil ∧ st.room = 0 then
      ⟨r.2, st.cycles + 1, st.errChan, st.room, LoopStatus.sending⟩
    else
      let errChan := if r.1 ≠ GoError.nil then st.errChan ++ [r.1] else st.errChan
      let room := if r.1 ≠ GoError.nil then st.room - 1 else st.room
      match selects with
      | [] => ⟨r.2, st.cycles + 1, errChan, room, LoopStatus.waiting⟩
      | SelectCase.tick :: rest =>
        unlockerLoop d doneChan rest ⟨r.2, st.cycles + 1, errChan, room, LoopStatus.running⟩
      | SelectCase.done :: _ =>
        if (doneChan.recv).isSome = true then
          ⟨r.2, st.cycles + 1, errChan, room, LoopStatus.returned⟩
        else
          ⟨r.2, st.cycles + 1, errChan, room, LoopStatus.waiting⟩

/-- Method `Dispatcher.runRecordUnlocker` of dispatcher.go, started on the
store `s` with an error channel that takes `errRoom` values: the ticker is
created, then the loop runs. -/
def runRecordUnlocker {σ : Type} (d : Dispatcher σ) (errRoom : Nat) (doneChan : Chan)
    (selects : List SelectCase) (s : σ) : Option (LoopRun σ) :=
  match NewTicker d.settings.LockCheckerInterval with
  | none => none
  | some _ => some (unlockerLoop d doneChan selects (LoopRun.start s errRoom))

/-- The `for` loop of `Dispatcher.runRecordCleaner` in dispatcher.go. -/
def cleanerLoop {σ : Type} (d : Dispatcher σ) (doneChan : Chan) :
    List SelectCase → LoopRun σ → LoopRun σ
  | selects, st =>
    let r := d.recordCleaner.RemoveExpiredMessages st.store
    if r.1 ≠ GoError.nil ∧ st.room = 0 then
      ⟨r.2, st.cycles + 1, st.errChan, st.room, LoopStatus.sending⟩
    else
      let errChan := if r.1 ≠ GoError.nil then st.errChan ++ [r.1] else st.errChan
      let room := if r.1 ≠ GoError.nil then st.room - 1 else st.room
      match selects with
      | [] => ⟨r.2, st.cycles + 1, errChan, room, LoopStatus.waiting⟩
      | SelectCase.tick :: rest =>
        cleanerLoop d doneChan rest ⟨r.2, st.cycles + 1, errChan, room, LoopStatus.running⟩
      | SelectCase.done :: _ =>
        if (doneChan.recv).isSome = true then
          ⟨r.2, st.cycles + 1, errChan, room, LoopStatus.returned⟩
        else
          ⟨r.2, st.cycles + 1, errChan, room, LoopStatus.waiting⟩

/-- Method `Dispatcher.runRecordCleaner` of dispatcher.go, started on the
store `s` with an error channel that takes `errRoom` values: the ticker is
created, then the loop runs. -/
def runRecordCleaner {σ : Type} (d : Dispatcher σ) (errRoom : Nat) (doneChan : Chan)
    (selects : List SelectCase) (s : σ) : Option (LoopRun σ) :=
  match NewTicker d.settings.CleanupWorkerInterval with
  | none => none
  | some _ => some (cleanerLoop d doneChan selects (LoopRun.start s errRoom))

/-- The body that the three loops share, with the loop itself passed in
for the next round: one cycle of the unit `work`, the send of its error,
the `select`. -/
def loopBody {σ : Type} (work : σ → GoError × σ) (doneChan : Chan)
    (L : List SelectCase → LoopRun σ → LoopRun σ)
    (selects : List SelectCase) (st : LoopRun σ) : LoopRun σ :=
  if (work st.store).1 ≠ GoError.nil ∧ st.room = 0 then
    ⟨(work st.store).2, st.cycles + 1, st.errChan, st.room, LoopStatus.sending⟩
  else
    match selects with
    | [] =>
      ⟨(work st.store).2, st.cycles + 1,
        if (work st.store).1 ≠ GoError.nil then st.errChan ++ [(work st.store).1]
        else st.errChan,
        if (work st.store).1 ≠ GoError.nil then st.room - 1 else st.room,
        LoopStatus.waiting⟩
    | SelectCase.tick :: rest =>
      L rest ⟨(work st.store).2, st.cycles + 1,
        if (work st.store).1 ≠ GoError.nil then st.errChan ++ [(work st.store).1]
        else st.errChan,
        if (work st.store).1 ≠ GoError.nil then st.room - 1 else st.room,
        LoopStatus.running⟩
    | SelectCase.done :: _ =>
      if (doneChan.recv).isSome = true then
        ⟨(work st.store).2, st.cycles + 1,
          if (work st.store).1 ≠ GoError.nil then st.errChan ++ [(work st.store).1]
          else st.errChan,
          if (work st.store).1 ≠ GoError.nil then st.room - 1 else st.room,
          LoopStatus.returned⟩
      else
        ⟨(work st.store).2, st.cycles + 1,
          if (work st.store).1 ≠ GoError.nil then st.errChan ++ [(work st.store).1]
          else st.errChan,
          if (work st.store).1 ≠ GoError.nil then st.room - 1 else st.room,
          LoopStatus.waiting⟩

/-- The three per-loop stop channels as the first goroutine of `Run`
leaves them, and whether that goroutine has run to its end. -/
structure FanOut where
  doneProc : Chan
  doneUnlock : Chan
  doneClear : Chan
  finished : Bool
  deriving DecidableEq

/-- The first goroutine that `Run` starts in dispatcher.go: one receive
on `doneChan`, then one send on each of the three stop channels.  It
stays where a receive or a send blocks. -/
def fanOut (doneChan doneProc doneUnlock doneClear : Chan) : FanOut :=
  match doneChan.recv with
  | none => ⟨doneProc, doneUnlock, doneClear, false⟩
  | some _ =>
    match doneProc.send with
    | none => ⟨doneProc, doneUnlock, doneClear, false⟩
    | some doneProc1 =>
      match doneUnlock.send with
      | none => ⟨doneProc1, doneUnlock, doneClear, false⟩
      | some doneUnlock1 =>
        match doneClear.send with
        | none => ⟨doneProc1, doneUnlock1, doneClear, false⟩
        | some doneClear1 => ⟨doneProc1, doneUnlock1, doneClear1, true⟩

/-- What one loop meets while it runs: the store it starts on, the number
of values the error channel takes from it, and the cases its successive
`select`s take. -/
structure LoopEnv (σ : Type) where
  store : σ
  errRoom : Nat
  selects : List SelectCase

/-- What `Run` has set in motion: the stop channels and the three
loops. -/
structure RunResult (σ : Type) where
  signals : FanOut
  processor : Option (LoopRun σ)
  unlocker : Option (LoopRun σ)
  cleaner : Option (LoopRun σ)

/-- Method `Dispatcher.Run` of dispatcher.go: three stop channels of
capacity 1, the goroutine that hands the shutdown signal on to them, and
the three loops, each on its own stop channel. -/
def Dispatcher.Run {σ : Type} (d : Dispatcher σ) (doneChan : Chan)
    (envProc envUnlock envClear : LoopEnv σ) : RunResult σ :=
  let doneProc := Chan.make 1
  let doneUnlock := Chan.make 1
  let doneClear := Chan.make 1
  let signals := fanOut doneChan doneProc doneUnlock doneClear
  ⟨signals,
   runRecordProcessor d envProc.errRoom signals.doneProc envProc.selects envProc.store,
   runRecordUnlocker d envUnlock.errRoom signals.doneUnlock envUnlock.selects envUnlock.store,
   runRecordCleaner d envClear.errRoom signals.doneClear envClear.selects envClear.store⟩

/-- A dispatcher whose three units of work each return the errors of the
store, a list, one cycle after the other, with every interval one
second. -/
def scriptDispatcher : Dispatcher (List GoError) :=
  { recordProcessor := ⟨script⟩
    recordUnlocker := ⟨script⟩
    recordCleaner := ⟨script⟩
    settings :=
      { ProcessInterval := 1000000000
        LockCheckerInterval := 1000000000
        MaxLockTimeDuration := 1000000000
        CleanupWorkerInterval := 1000000000
        RetrialPolicy := ⟨false, 0⟩
        MessagesRetentionDuration := 1000000000 } }

/-- The scripted dispatcher with the zero value of `DispatcherSettings`,
what a caller gets who sets no interval. -/
def zeroSettingsDispatcher : Dispatcher (List GoError) :=
  { recordProcessor := ⟨script⟩
    recordUnlocker := ⟨script⟩
    recordCleaner := ⟨script⟩
    settings :=
      { ProcessInterval := 0
        LockCheckerInterval := 0
        MaxLockTimeDuration := 0
        CleanupWorkerInterval := 0
        RetrialPolicy := ⟨false, 0⟩
        MessagesRetentionDuration := 0 } }

/-- Number of `select`s that take the tick case before the first one
that takes the done case. -/
def ticksTaken (selects : List SelectCase) : Nat :=
  (selects.takeWhile (fun c => decide (c = SelectCase.tick))).length

/-- The errors among the results of the first `n` cycles of a unit of
work run from the store `s`, in order. -/
def cycleErrors {σ : Type} (work : σ → GoError × σ) (s : σ) (n : Nat) : List GoError :=
  ((List.range n).map (callResult work s)).filter (fun e => decide (e ≠ GoError.nil))

/-! ## Lemmas on the retry loop -/

theorem isRetryable_iff (e : GoError) :
    isRetryable e = true ↔ ∃ rErr, errorsAs e = some rErr := by
  unfold isRetryable
  cases h : errorsAs e <;> simp

theorem isRetryable_false_iff (e : GoError) :
    isRetryable e = false ↔ errorsAs e = none := by
  unfold isRetryable
  cases h : errorsAs e <;> simp

theorem uintSize_pos : 1 < uintSize := by
  unfold uintSize; norm_num

/-- Under the loop invariant the increment of `attempt` does not wrap. -/
theorem attempt_succ_mod {a N : Nat} (hN : N < uintSize) (hinv : a < N ∨ a = 0) :
    (a + 1) % uintSize = a + 1 := by
  apply Nat.mod_eq_of_lt
  rcases hinv with h | h
  · omega
  · subst h; exact uintSize_pos

theorem callResult_zero {σ : Type} (f : RetryableFunc σ) (s : σ) :
    callResult f s 0 = (f s).1 := rfl

theorem callResult_succ {σ : Type} (f : RetryableFunc σ) (s : σ) (i : Nat) :
    callResult f s (i + 1) = callResult f (f s).2 i := rfl

theorem map_callResult_range_succ {σ : Type} (f : RetryableFunc σ) (s : σ) (n : Nat) :
    (List.range (n + 1)).map (callResult f s)
      = (f s).1 :: (List.range n).map (callResult f (f s).2) := by
  rw [List.range_succ_eq_map]
  simp [List.map_map, Function.comp_def, callResult_succ, callResult_zero]

/-- What the loop does, from any point that satisfies its invariant: with
fuel for the attempts that remain it returns; it has then made `m + 1`
further invocations, the first `m` of which returned retryable errors, and
the returned error is read off the last one. -/
theorem DoLoop_spec {σ : Type} (f : RetryableFunc σ) (conf : config)
    (hN : conf.maxAttempts < uintSize) :
    ∀ (fuel : Nat) (s : σ) (a : Nat) (tr : List GoError),
      (a < conf.maxAttempts ∨ a = 0) →
      max 1 (conf.maxAttempts - a) ≤ fuel →
      ∃ (r : DoResult σ) (m : Nat),
        DoLoop f conf fuel s a tr = some r ∧
        r.trace = tr ++ (List.range (m + 1)).map (callResult f s) ∧
        m + 1 ≤ max 1 (conf.maxAttempts - a) ∧
        (∀ i, i < m → isRetryable (callResult f s i) = true) ∧
        r.state = stateAfter f s (m + 1) ∧
        ((errorsAs (callResult f s m) = none ∧ r.err = callResult f s m) ∨
          (∃ rErr, errorsAs (callResult f s m) = some rErr ∧ r.err = rErr.err ∧
            conf.maxAttempts ≤ a + m + 1)) := by
  intro fuel
  induction fuel with
  | zero =>
    intro s a tr _ hfuel
    omega
  | succ fuel ih =>
    intro s a tr hinv hfuel
    by_cases hnil : (f s).1 = GoError.nil
    · refine ⟨⟨GoError.nil, tr ++ [(f s).1], (f s).2⟩, 0, ?_, ?_, ?_, ?_, ?_, ?_⟩
      · simp [DoLoop, hnil]
      · rw [map_callResult_range_succ]; simp
      · omega
      · intro i hi; omega
      · rfl
      · left
        simp [callResult_zero, hnil, errorsAs]
    · cases has : errorsAs (f s).1 with
      | none =>
        refine ⟨⟨(f s).1, tr ++ [(f s).1], (f s).2⟩, 0, ?_, ?_, ?_, ?_, ?_, ?_⟩
        · simp [DoLoop, hnil, has]
        · rw [map_callResult_range_succ]; simp
        · omega
        · intro i hi; omega
        · rfl
        · left
          simp [callResult_zero, has]
      | some rErr =>
        have hmod := attempt_succ_mod hN hinv
        by_cases hstop : conf.maxAttempts ≤ a + 1
        · refine ⟨⟨rErr.Unwrap, tr ++ [(f s).1], (f s).2⟩, 0, ?_, ?_, ?_, ?_, ?_, ?_⟩
          · simp [DoLoop, hnil, has, hmod, next, hstop]
          · rw [map_callResult_range_succ]; simp
          · omega
          · intro i hi; omega
          · rfl
          · right
            exact ⟨rErr, by simpa [callResult_zero] using has, rfl, by omega⟩
        · have hlt : a + 1 < conf.maxAttempts := by omega
          have hfuel' : max 1 (conf.maxAttempts - (a + 1)) ≤ fuel := by omega
          obtain ⟨r, m, hrun, htr, hm, hretry, hst, herr⟩ :=
            ih (f s).2 (a + 1) (tr ++ [(f s).1]) (Or.inl hlt) hfuel'
          refine ⟨r, m + 1, ?_, ?_, ?_, ?_, ?_, ?_⟩
          · simp [DoLoop, hnil, has, hmod, next, hstop, hrun]
          · rw [htr, map_callResult_range_succ f s (m + 1)]
            simp
          · omega
          · intro i hi
            cases i with
            | zero =>
              rw [callResult_zero]
              exact (isRetryable_iff _).2 ⟨rErr, has⟩
            | succ j =>
              rw [callResult_succ]
              exact hretry j (by omega)
          · rw [hst]; rfl
          · rcases herr with ⟨h1, h2⟩ | ⟨q, h1, h2, h3⟩
            · left
              exact ⟨by rw [callResult_succ]; exact h1, by rw [callResult_succ]; exact h2⟩
            · right
              exact ⟨q, by rw [callResult_succ]; exact h1, h2, by omega⟩

theorem errorsAs_RetryableError {e : GoError} (he : e ≠ GoError.nil) :
    errorsAs (RetryableError e) = some ⟨e⟩ := by
  simp [RetryableError, he, errorsAs]

theorem isRetryable_RetryableError {e : GoError} (he : e ≠ GoError.nil) :
    isRetryable (RetryableError e) = true := by
  simp [isRetryable, errorsAs_RetryableError he]

/-- The loop characterisation at the entry point `Do`. -/
theorem Do_spec {σ : Type} (f : RetryableFunc σ) (s : σ) (opts : List Option')
    (hN : (applyOpts opts).maxAttempts < uintSize) (fuel : Nat)
    (hfuel : max 1 (applyOpts opts).maxAttempts ≤ fuel) :
    ∃ (r : DoResult σ) (m : Nat),
      Do fuel f s opts = some r ∧
      r.trace = (List.range (m + 1)).map (callResult f s) ∧
      m + 1 ≤ max 1 (applyOpts opts).maxAttempts ∧
      (∀ i, i < m → isRetryable (callResult f s i) = true) ∧
      r.state = stateAfter f s (m + 1) ∧
      ((errorsAs (callResult f s m) = none ∧ r.err = callResult f s m) ∨
        (∃ rErr, errorsAs (callResult f s m) = some rErr ∧ r.err = rErr.err ∧
          (applyOpts opts).maxAttempts ≤ m + 1)) := by
  obtain ⟨r, m, h1, h2, h3, h4, h5, h6⟩ :=
    DoLoop_spec f (applyOpts opts) hN fuel s 0 [] (Or.inr rfl) (by simpa using hfuel)
  refine ⟨r, m, h1, by simpa using h2, by simpa using h3, h4, h5, ?_⟩
  simpa using h6

/-- When every call returns a retryable error, the budget is used up. -/
theorem Do_always_retryable {σ : Type} (f : RetryableFunc σ) (s : σ) (opts : List Option')
    (hN : (applyOpts opts).maxAttempts < uintSize) (fuel : Nat)
    (hfuel : max 1 (applyOpts opts).maxAttempts ≤ fuel)
    (hretry : ∀ i, isRetryable (callResult f s i) = true) :
    ∃ (r : DoResult σ) (rErr : retryableError),
      Do fuel f s opts = some r ∧
      r.calls = max 1 (applyOpts opts).maxAttempts ∧
      errorsAs (callResult f s (r.calls - 1)) = some rErr ∧ r.err = rErr.err := by
  obtain ⟨r, m, h1, h2, h3, _, _, h6⟩ := Do_spec f s opts hN fuel hfuel
  have hcalls : r.calls = m + 1 := by simp [DoResult.calls, h2]
  rcases h6 with ⟨hnone, _⟩ | ⟨rErr, hsome, herr, hle⟩
  · have := hretry m
    rw [(isRetryable_false_iff _).2 hnone] at this
    exact absurd this (by decide)
  · refine ⟨r, rErr, h1, ?_, ?_, herr⟩
    · rw [hcalls]; omega
    · rw [hcalls]; simpa using hsome

/-! ## Lemmas on the dispatcher loops -/

theorem ticksTaken_nil : ticksTaken [] = 0 := rfl

theorem ticksTaken_tick (rest : List SelectCase) :
    ticksTaken (SelectCase.tick :: rest) = ticksTaken rest + 1 := by
  simp [ticksTaken, List.takeWhile]

theorem ticksTaken_done (rest : List SelectCase) :
    ticksTaken (SelectCase.done :: rest) = 0 := by
  simp [ticksTaken, List.takeWhile]

theorem cycleErrors_succ {σ : Type} (work : σ → GoError × σ) (s : σ) (n : Nat) :
    cycleErrors work s (n + 1)
      = (if (work s).1 ≠ GoError.nil then [(work s).1] else [])
          ++ cycleErrors work (work s).2 n := by
  unfold cycleErrors
  rw [map_callResult_range_succ]
  by_cases h : (work s).1 = GoError.nil <;> simp [List.filter_cons, h]

theorem cycleErrors_zero {σ : Type} (work : σ → GoError × σ) (s : σ) :
    cycleErrors work s 0 = [] := rfl

theorem processorLoop_eq {σ : Type} (d : Dispatcher σ) (c : Chan)
    (selects : List SelectCase) (st : LoopRun σ) :
    processorLoop d c selects st
      = loopBody d.recordProcessor.ProcessRecords c (processorLoop d c) selects st := by
  cases selects with
  | nil => rfl
  | cons x rest => cases x <;> rfl

theorem unlockerLoop_eq {σ : Type} (d : Dispatcher σ) (c : Chan)
    (selects : List SelectCase) (st : LoopRun σ) :
    unlockerLoop d c selects st
      = loopBody d.recordUnlocker.UnlockExpiredMessages c (unlockerLoop d c) selects st := by
  cases selects with
  | nil => rfl
  | cons x rest => cases x <;> rfl

theorem cleanerLoop_eq {σ : Type} (d : Dispatcher σ) (c : Chan)
    (selects : List SelectCase) (st : LoopRun σ) :
    cleanerLoop d c selects st
      = loopBody d.recordCleaner.RemoveExpiredMessages c (cleanerLoop d c) selects st := by
  cases selects with
  | nil => rfl
  | cons x rest => cases x <;> rfl

/-- Any function that unfolds the way the three loops do: as long as the
error channel takes the errors of the cycles, it runs one cycle per tick
taken plus one, sends the errors of those cycles, and has returned exactly
when a select took the done case with the stop signal there. -/
theorem loop_spec {σ : Type} (work : σ → GoError × σ) (c : Chan)
    (L : List SelectCase → LoopRun σ → LoopRun σ)
    (hL : ∀ selects st, L selects st = loopBody work c L selects st) :
    ∀ (selects : List SelectCase) (st : LoopRun σ),
      (cycleErrors work st.store (1 + ticksTaken selects)).length ≤ st.room →
      (L selects st).cycles = st.cycles + (1 + ticksTaken selects) ∧
      (L selects st).errChan
        = st.errChan ++ cycleErrors work st.store (1 + ticksTaken selects) ∧
      (L selects st).status
        = (if SelectCase.done ∈ selects ∧ (c.recv).isSome = true then LoopStatus.returned
           else LoopStatus.waiting) ∧
      (L selects st).store = stateAfter work st.store (1 + ticksTaken selects) := by
  intro selects
  induction selects with
  | nil =>
    intro st hroom
    have hroom' : (cycleErrors work st.store (0 + 1)).length ≤ st.room := by
      simpa [ticksTaken_nil] using hroom
    rw [cycleErrors_succ, cycleErrors_zero] at hroom'
    have hnb : ¬ ((work st.store).1 ≠ GoError.nil ∧ st.room = 0) := by
      rintro ⟨h1, h2⟩
      simp [h1, h2] at hroom'
    rw [hL, ticksTaken_nil]
    simp only [loopBody, if_neg hnb]
    refine ⟨trivial, ?_, by simp, rfl⟩
    show _ = st.errChan ++ cycleErrors work st.store (0 + 1)
    rw [cycleErrors_succ, cycleErrors_zero]
    by_cases h : (work st.store).1 = GoError.nil <;> simp [h]
  | cons x rest ih =>
    intro st hroom
    cases x with
    | tick =>
      rw [ticksTaken_tick] at hroom ⊢
      have hroom' : (cycleErrors work st.store ((1 + ticksTaken rest) + 1)).length
          ≤ st.room := hroom
      rw [cycleErrors_succ, List.length_append] at hroom'
      have hnb : ¬ ((work st.store).1 ≠ GoError.nil ∧ st.room = 0) := by
        rintro ⟨h1, h2⟩
        simp [h1, h2] at hroom'
      rw [hL]
      simp only [loopBody, if_neg hnb]
      obtain ⟨h1, h2, h3, h4⟩ := ih ⟨(work st.store).2, st.cycles + 1,
        if (work st.store).1 ≠ GoError.nil then st.errChan ++ [(work st.store).1]
        else st.errChan,
        if (work st.store).1 ≠ GoError.nil then st.room - 1 else st.room,
        LoopStatus.running⟩ (by
          show (cycleErrors work (work st.store).2 (1 + ticksTaken rest)).length ≤ _
          by_cases h : (work st.store).1 = GoError.nil
          · simp [h] at hroom' ⊢; exact hroom'
          · simp [h] at hroom' ⊢; omega)
      refine ⟨?_, ?_, ?_, ?_⟩
      · rw [h1]; simp only []; omega
      · rw [h2]
        show _ = st.errChan ++ cycleErrors work st.store ((1 + ticksTaken rest) + 1)
        rw [cycleErrors_succ]
        by_cases h : (work st.store).1 = GoError.nil <;> simp [h]
      · rw [h3]; simp
      · rw [h4]
        show _ = stateAfter work st.store ((1 + ticksTaken rest) + 1)
        rfl
    | done =>
      rw [ticksTaken_done] at hroom ⊢
      have hroom' : (cycleErrors work st.store (0 + 1)).length ≤ st.room := hroom
      rw [cycleErrors_succ, cycleErrors_zero] at hroom'
      have hnb : ¬ ((work st.store).1 ≠ GoError.nil ∧ st.room = 0) := by
        rintro ⟨h1, h2⟩
        simp [h1, h2] at hroom'
      rw [hL]
      simp only [loopBody, if_neg hnb]
      by_cases hr : (c.recv).isSome = true
      · simp only [hr, if_true]
        refine ⟨trivial, ?_, by simp, rfl⟩
        show _ = st.errChan ++ cycleErrors work st.store (0 + 1)
        rw [cycleErrors_succ, cycleErrors_zero]
        by_cases h : (work st.store).1 = GoError.nil <;> simp [h]
      · simp only [hr, Bool.false_eq_true, if_false]
        refine ⟨trivial, ?_, by simp, rfl⟩
        show _ = st.errChan ++ cycleErrors work st.store (0 + 1)
        rw [cycleErrors_succ, cycleErrors_zero]
        by_cases h : (work st.store).1 = GoError.nil <;> simp [h]

/-- A loop found waiting in its `select` while its stop channel is empty
returns, with nothing else changed, when instead the signal is there and
the next `select` takes the done case. -/
theorem loop_stops_in_idle_wait {σ : Type} (work : σ → GoError × σ) (quiet tok : Chan)
    (hquiet : (quiet.recv).isSome = false) (htok : (tok.recv).isSome = true)
    (Lq Lt : List SelectCase → LoopRun σ → LoopRun σ)
    (hLq : ∀ selects st, Lq selects st = loopBody work quiet Lq selects st)
    (hLt : ∀ selects st, Lt selects st = loopBody work tok Lt selects st) :
    ∀ (pre rest : List SelectCase) (st : LoopRun σ),
      (Lq pre st).status = LoopStatus.waiting →
      Lt (pre ++ SelectCase.done :: rest) st
        = { Lq pre st with status := LoopStatus.returned } := by
  intro pre
  induction pre with
  | nil =>
    intro rest st hw
    rw [hLq] at hw ⊢
    rw [hLt]
    by_cases hb : (work st.store).1 ≠ GoError.nil ∧ st.room = 0
    · simp [loopBody, hb] at hw
    · simp [loopBody, hb, htok]
  | cons x pre ih =>
    intro rest st hw
    rw [hLq] at hw ⊢
    rw [hLt]
    by_cases hb : (work st.store).1 ≠ GoError.nil ∧ st.room = 0
    · simp [loopBody, hb] at hw
    · cases x with
      | tick =>
        simp only [loopBody, if_neg hb, List.cons_append] at hw ⊢
        exact ih rest _ hw
      | done =>
        simp [loopBody, hb, htok, hquiet]

theorem NewTicker_pos {d : Int} (h : 0 < d) : NewTicker d = some () := by
  simp [NewTicker, h]

theorem fanOut_signalled {doneChan : Chan} (h : (doneChan.recv).isSome = true) :
    fanOut doneChan (Chan.make 1) (Chan.make 1) (Chan.make 1)
      = ⟨Chan.mk 1 1 false, Chan.mk 1 1 false, Chan.mk 1 1 false, true⟩ := by
  unfold fanOut
  cases hr : doneChan.recv with
  | none => rw [hr] at h; exact absurd h (by decide)
  | some c => rfl

theorem fanOut_quiet {quiet : Chan} (h : (quiet.recv).isSome = false) :
    fanOut quiet (Chan.make 1) (Chan.make 1) (Chan.make 1)
      = ⟨Chan.make 1, Chan.make 1, Chan.make 1, false⟩ := by
  unfold fanOut
  cases hr : quiet.recv with
  | none => rfl
  | some c => rw [hr] at h; simp at h

/-! ## The claims on the retry engine -/

/-- C1, as amended: with the maximum N set by `WithMaxAttempts(N)` or by
`MaxAttempts(N)` and a unit of work that returns `RetryableError` of a
non-nil error on every call, `Do` returns after invoking the unit exactly
max(1, N) times: N times when N is at least 1, once when N is 0. -/
theorem C1_retryable_unit_calls_max_one_N {σ : Type} (N : Nat) (hN : N < uintSize)
    (f : RetryableFunc σ) (s : σ)
    (hretry : ∀ i, ∃ e, e ≠ GoError.nil ∧ callResult f s i = RetryableError e)
    (fuel : Nat) (hfuel : max 1 N ≤ fuel) :
    (∃ r, Do fuel f s [WithMaxAttempts N] = some r ∧ r.calls = max 1 N) ∧
    (∃ r, Do fuel f s [MaxAttempts N] = some r ∧ r.calls = max 1 N) := by
  have hall : ∀ i, isRetryable (callResult f s i) = true := by
    intro i
    obtain ⟨e, he, hi⟩ := hretry i
    rw [hi]
    exact isRetryable_RetryableError he
  constructor
  · obtain ⟨r, _, h1, h2, _⟩ :=
      Do_always_retryable f s [WithMaxAttempts N] hN fuel hfuel hall
    exact ⟨r, h1, h2⟩
  · obtain ⟨r, _, h1, h2, _⟩ :=
      Do_always_retryable f s [MaxAttempts N] hN fuel hfuel hall
    exact ⟨r, h1, h2⟩

/-- C1, witness: maximum 2 and a unit that always returns a retryable
error. -/
theorem C1_retryable_unit_calls_max_one_N_witness :
    (2 < uintSize) ∧
    (∃ r, Do 2 (always (RetryableError (GoError.plain 1))) () [WithMaxAttempts 2] = some r ∧
      r.calls = max 1 2) ∧
    (∃ r, Do 2 (always (RetryableError (GoError.plain 1))) () [MaxAttempts 2] = some r ∧
      r.calls = max 1 2) :=
  ⟨by decide,
   C1_retryable_unit_calls_max_one_N 2 (by decide)
     (always (RetryableError (GoError.plain 1))) ()
     (fun _ => ⟨GoError.plain 1, by decide, rfl⟩) 2 (by decide)⟩

/-- C1, counterexample: with `WithMaxAttempts(0)` and a unit of work that
returns `RetryableError` of a non-nil error on every call, `Do` invokes
the unit once, not 0 times. -/
theorem C1_counterexample_max_zero :
    ∃ r, Do 10 (always (RetryableError (GoError.plain 1))) () [WithMaxAttempts 0] = some r ∧
      r.calls = 1 ∧ r.calls ≠ 0 :=
  ⟨_, rfl, by decide, by decide⟩

/-- C2: for a non-nil error e and any configuration, when the unit of work
returns `RetryableError(e)` on every call, `Do` returns, and the error it
returns is e itself, not the wrapper. -/
theorem C2_returns_unwrapped_original {σ : Type} (e : GoError) (he : e ≠ GoError.nil)
    (f : RetryableFunc σ) (s : σ) (opts : List Option')
    (hN : (applyOpts opts).maxAttempts < uintSize)
    (hretry : ∀ i, callResult f s i = RetryableError e)
    (fuel : Nat) (hfuel : max 1 (applyOpts opts).maxAttempts ≤ fuel) :
    ∃ r, Do fuel f s opts = some r ∧ r.err = e ∧ r.err ≠ RetryableError e := by
  have hall : ∀ i, isRetryable (callResult f s i) = true := by
    intro i
    rw [hretry i]
    exact isRetryable_RetryableError he
  obtain ⟨r, rErr, h1, _, h3, h4⟩ := Do_always_retryable f s opts hN fuel hfuel hall
  rw [hretry, errorsAs_RetryableError he] at h3
  have hre : r.err = e := by
    rw [h4, ← Option.some.inj h3]
  refine ⟨r, h1, hre, ?_⟩
  rw [hre]
  intro hcontra
  have hsz := congrArg sizeOf hcontra
  simp [RetryableError, he] at hsz

/-- C2, witness: the unit of `TestUnWraps`, with the default maximum. -/
theorem C2_returns_unwrapped_original_witness :
    GoError.plain 1 ≠ GoError.nil ∧ (applyOpts []).maxAttempts < uintSize ∧
    ∃ r, Do 3 (always (RetryableError (GoError.plain 1))) () [] = some r ∧
      r.err = GoError.plain 1 ∧ r.err ≠ RetryableError (GoError.plain 1) :=
  ⟨by decide, by decide,
   C2_returns_unwrapped_original (GoError.plain 1) (by decide)
     (always (RetryableError (GoError.plain 1))) () [] (by decide) (fun _ => rfl) 3 (by decide)⟩

/-- What `Do` does with `Unrecoverable(e)` when e carries no retryable
wrapper in its chain, the case of `TestUnRecoverableError`: the unit is
invoked once and the wrapper is returned. -/
theorem Unrecoverable_of_non_retryable_stops_at_once {σ : Type} (e : GoError)
    (he : isRetryable e = false)
    (f : RetryableFunc σ) (s : σ) (opts : List Option')
    (hfirst : callResult f s 0 = Unrecoverable e)
    (fuel : Nat) (hfuel : 1 ≤ fuel) :
    ∃ r, Do fuel f s opts = some r ∧ r.calls = 1 ∧ errorsUnwrap r.err = e := by
  obtain ⟨n, rfl⟩ : ∃ n, fuel = n + 1 := ⟨fuel - 1, by omega⟩
  have h1 : (f s).1 = GoError.unrecoverable e := hfirst
  have h2 : errorsAs (GoError.unrecoverable e) = none := by
    rw [errorsAs]; exact (isRetryable_false_iff e).1 he
  refine ⟨⟨GoError.unrecoverable e, [GoError.unrecoverable e], (f s).2⟩, ?_, rfl, rfl⟩
  simp [Do, DoLoop, h1, h2]

/-- C3, the code at the failing input: e is `RetryableError` of a plain
error.  `errors.As` walks through the unrecoverable wrapper and finds the
retryable one, so a unit that returns `Unrecoverable(e)` on every call,
the first included, is invoked 3 times by `Do` with the default
configuration, and the plain error is returned, whose `errors.Unwrap` is
nil and not e. -/
theorem C3_unrecoverable_of_retryable_is_retried :
    errorsAs (Unrecoverable (RetryableError (GoError.plain 1)))
      = errorsAs (RetryableError (GoError.plain 1)) ∧
    ∃ r, Do 10 (always (Unrecoverable (RetryableError (GoError.plain 1)))) () [] = some r ∧
      r.calls = 3 ∧ r.calls ≠ 1 ∧ r.err = GoError.plain 1 ∧
      errorsUnwrap r.err ≠ RetryableError (GoError.plain 1) :=
  ⟨rfl, _, rfl, by decide, by decide, by decide, by decide⟩

/-- C4, as amended: for every unit of work and every configuration with
maximum N, if the first k - 1 calls of the unit return retryable errors,
its k-th call (here k = j + 1) returns a non-nil error with no retryable
wrapper in its chain, and k is at most max(1, N), then `Do` returns
exactly that error, unchanged, and the unit is invoked exactly k times. -/
theorem C4_non_retryable_returned_unchanged {σ : Type}
    (f : RetryableFunc σ) (s : σ) (opts : List Option')
    (hN : (applyOpts opts).maxAttempts < uintSize)
    (j : Nat) (hj : j < max 1 (applyOpts opts).maxAttempts)
    (hretry : ∀ i, i < j → isRetryable (callResult f s i) = true)
    (hne : callResult f s j ≠ GoError.nil)
    (hnr : isRetryable (callResult f s j) = false)
    (fuel : Nat) (hfuel : max 1 (applyOpts opts).maxAttempts ≤ fuel) :
    ∃ r, Do fuel f s opts = some r ∧ r.err = callResult f s j ∧ r.calls = j + 1 := by
  obtain ⟨r, m, h1, h2, _, h4, _, h6⟩ := Do_spec f s opts hN fuel hfuel
  have hcalls : r.calls = m + 1 := by simp [DoResult.calls, h2]
  have hmj : m = j := by
    rcases Nat.lt_trichotomy m j with hlt | heq | hgt
    · exfalso
      rcases h6 with ⟨hnone, _⟩ | ⟨_, _, _, hle⟩
      · have := hretry m hlt
        rw [(isRetryable_false_iff _).2 hnone] at this
        exact absurd this (by decide)
      · omega
    · exact heq
    · exfalso
      have := h4 j hgt
      rw [hnr] at this
      exact absurd this (by decide)
  subst hmj
  refine ⟨r, h1, ?_, hcalls⟩
  rcases h6 with ⟨_, herr⟩ | ⟨rErr, hsome, _, _⟩
  · exact herr
  · rw [(isRetryable_false_iff _).1 hnr] at hsome
    exact absurd hsome (by simp)

/-- C4, witness: maximum 5 and a unit that returns a retryable error on
its first call and a plain error on its second. -/
theorem C4_non_retryable_returned_unchanged_witness :
    (applyOpts [WithMaxAttempts 5]).maxAttempts < uintSize ∧
    1 < max 1 (applyOpts [WithMaxAttempts 5]).maxAttempts ∧
    ∃ r, Do 5 script [RetryableError (GoError.plain 1), GoError.plain 2] [WithMaxAttempts 5]
        = some r ∧
      r.err = callResult script [RetryableError (GoError.plain 1), GoError.plain 2] 1 ∧
      r.calls = 1 + 1 :=
  ⟨by decide, by decide,
   C4_non_retryable_returned_unchanged script
     [RetryableError (GoError.plain 1), GoError.plain 2] [WithMaxAttempts 5]
     (by decide) 1 (by decide)
     (fun i hi => by
        have : i = 0 := by omega
        subst this; rfl)
     (by decide) (by decide) 5 (by decide)⟩

/-- C4, counterexample: with maximum 3, a unit whose fourth call is its
first to return an error that is not marked retryable, after three
retryable errors, is invoked 3 times and `Do` returns the error held by
the third; and with the default configuration a unit that succeeds on its
first call and whose second call would return a plain error is invoked
once and `Do` returns nil. -/
theorem C4_counterexample_budget_ends_first :
    (isRetryable (callResult script
        [RetryableError (GoError.plain 1), RetryableError (GoError.plain 2),
          RetryableError (GoError.plain 3), GoError.plain 4] 0) = true ∧
      isRetryable (callResult script
        [RetryableError (GoError.plain 1), RetryableError (GoError.plain 2),
          RetryableError (GoError.plain 3), GoError.plain 4] 1) = true ∧
      isRetryable (callResult script
        [RetryableError (GoError.plain 1), RetryableError (GoError.plain 2),
          RetryableError (GoError.plain 3), GoError.plain 4] 2) = true ∧
      callResult script
        [RetryableError (GoError.plain 1), RetryableError (GoError.plain 2),
          RetryableError (GoError.plain 3), GoError.plain 4] 3 = GoError.plain 4 ∧
      isRetryable (GoError.plain 4) = false ∧
      ∃ r, Do 10 script
          [RetryableError (GoError.plain 1), RetryableError (GoError.plain 2),
            RetryableError (GoError.plain 3), GoError.plain 4] [WithMaxAttempts 3] = some r ∧
        r.err = GoError.plain 3 ∧ r.err ≠ GoError.plain 4 ∧ r.calls = 3 ∧ r.calls ≠ 4) ∧
    (callResult script [GoError.nil, GoError.plain 2] 0 = GoError.nil ∧
      callResult script [GoError.nil, GoError.plain 2] 1 = GoError.plain 2 ∧
      isRetryable (GoError.plain 2) = false ∧
      ∃ r, Do 10 script [GoError.nil, GoError.plain 2] [] = some r ∧
        r.err = GoError.nil ∧ r.err ≠ GoError.plain 2 ∧ r.calls = 1 ∧ r.calls ≠ 2) :=
  ⟨⟨rfl, rfl, rfl, rfl, rfl, _, rfl, rfl, by decide, rfl, by decide⟩,
   ⟨rfl, rfl, rfl, _, rfl, rfl, by decide, rfl, by decide⟩⟩

/-- C5: with maximum N and k < N, when the unit of work returns a retryable
error on its first k calls and no error on call k + 1, `Do` returns no
error and invokes the unit exactly k + 1 times; the case k = 0, a unit that
succeeds on its first call, holds for every N, 0 included. -/
theorem C5_success_after_k_retries {σ : Type} (f : RetryableFunc σ) (s : σ)
    (opts : List Option') (hN : (applyOpts opts).maxAttempts < uintSize)
    (k : Nat) (hk : k < (applyOpts opts).maxAttempts ∨ k = 0)
    (hretry : ∀ i, i < k → isRetryable (callResult f s i) = true)
    (hok : callResult f s k = GoError.nil)
    (fuel : Nat) (hfuel : max 1 (applyOpts opts).maxAttempts ≤ fuel) :
    ∃ r, Do fuel f s opts = some r ∧ r.err = GoError.nil ∧ r.calls = k + 1 := by
  obtain ⟨r, m, h1, h2, _, h4, _, h6⟩ := Do_spec f s opts hN fuel hfuel
  have hcalls : r.calls = m + 1 := by simp [DoResult.calls, h2]
  have hmk : m = k := by
    rcases Nat.lt_trichotomy m k with hlt | heq | hgt
    · exfalso
      rcases h6 with ⟨hnone, _⟩ | ⟨_, _, _, hle⟩
      · have := hretry m hlt
        rw [(isRetryable_false_iff _).2 hnone] at this
        exact absurd this (by decide)
      · omega
    · exact heq
    · exfalso
      have := h4 k hgt
      rw [hok] at this
      exact absurd this (by decide)
  subst hmk
  refine ⟨r, h1, ?_, hcalls⟩
  rcases h6 with ⟨_, herr⟩ | ⟨rErr, hsome, _, _⟩
  · rw [herr, hok]
  · rw [hok] at hsome
    exact absurd hsome (by simp [errorsAs])

/-- C5, witness: maximum 3, two retryable errors, then success. -/
theorem C5_success_after_k_retries_witness :
    (applyOpts [WithMaxAttempts 3]).maxAttempts < uintSize ∧
    (2 < (applyOpts [WithMaxAttempts 3]).maxAttempts ∨ 2 = 0) ∧
    ∃ r, Do 3 script [RetryableError (GoError.plain 1), RetryableError (GoError.plain 2)]
        [WithMaxAttempts 3] = some r ∧ r.err = GoError.nil ∧ r.calls = 2 + 1 :=
  ⟨by decide, by decide,
   C5_success_after_k_retries script
     [RetryableError (GoError.plain 1), RetryableError (GoError.plain 2)]
     [WithMaxAttempts 3] (by decide) 2 (by decide)
     (fun i hi => by
        have : i = 0 ∨ i = 1 := by omega
        rcases this with h | h <;> subst h <;> rfl)
     rfl 3 (by decide)⟩

/-- C6, as amended: for every unit of work and every configuration `Do`
returns, and what it returns comes from the error of the last invocation
of the unit: when that error has no retryable wrapper in its chain it is
returned unchanged (nil for a success, an unrecoverable wrapper left in
place), and otherwise the returned error is the one held by the first
retryable wrapper of the chain, which may be a wrapper itself. -/
theorem C6_returned_error_from_last_call {σ : Type}
    (f : RetryableFunc σ) (s : σ) (opts : List Option')
    (hN : (applyOpts opts).maxAttempts < uintSize)
    (fuel : Nat) (hfuel : max 1 (applyOpts opts).maxAttempts ≤ fuel) :
    ∃ r last, Do fuel f s opts = some r ∧ r.trace.getLast? = some last ∧
      last = callResult f s (r.calls - 1) ∧
      ((errorsAs last = none ∧ r.err = last) ∨
        (∃ rErr, errorsAs last = some rErr ∧ r.err = rErr.Unwrap)) := by
  obtain ⟨r, m, h1, h2, _, _, _, h6⟩ := Do_spec f s opts hN fuel hfuel
  have hcalls : r.calls = m + 1 := by simp [DoResult.calls, h2]
  refine ⟨r, callResult f s m, h1, ?_, by rw [hcalls]; rfl, ?_⟩
  · rw [h2, List.range_succ]
    simp
  · rcases h6 with h | ⟨rErr, hsome, herr, _⟩
    · exact Or.inl h
    · exact Or.inr ⟨rErr, hsome, herr⟩

/-- C6, witness: the unit of `TestUnRecoverableError`. -/
theorem C6_returned_error_from_last_call_witness :
    (applyOpts []).maxAttempts < uintSize ∧
    ∃ r last, Do 3 (always (Unrecoverable (GoError.plain 1))) () [] = some r ∧
      r.trace.getLast? = some last ∧
      last = callResult (always (Unrecoverable (GoError.plain 1))) () (r.calls - 1) ∧
      ((errorsAs last = none ∧ r.err = last) ∨
        (∃ rErr, errorsAs last = some rErr ∧ r.err = rErr.Unwrap)) :=
  ⟨by decide,
   C6_returned_error_from_last_call (always (Unrecoverable (GoError.plain 1))) () []
     (by decide) 3 (by decide)⟩

/-- C6, counterexample: a unit that returns `Unrecoverable` of a plain
error makes `Do` return the unrecoverable wrapper around that error, and a
unit that returns a retryable error whose inner error is itself retryable
makes `Do` return a retryable wrapper. -/
theorem C6_counterexample_wrapper_returned :
    (∃ r, Do 10 (always (Unrecoverable (GoError.plain 1))) () [] = some r ∧
      r.err = GoError.unrecoverable (GoError.plain 1)) ∧
    (∃ r, Do 10 (always (RetryableError (RetryableError (GoError.plain 1)))) () [] = some r ∧
      r.err = GoError.retryable (GoError.plain 1)) :=
  ⟨⟨_, rfl, rfl⟩, ⟨_, rfl, rfl⟩⟩

/-- C7: with no options the maximum is 3, and a unit of work that returns a
retryable error on every call is invoked exactly 3 times. -/
theorem C7_default_three_attempts {σ : Type} (f : RetryableFunc σ) (s : σ)
    (hretry : ∀ i, isRetryable (callResult f s i) = true)
    (fuel : Nat) (hfuel : 3 ≤ fuel) :
    (applyOpts []).maxAttempts = 3 ∧
    ∃ r, Do fuel f s [] = some r ∧ r.calls = 3 := by
  refine ⟨rfl, ?_⟩
  obtain ⟨r, _, h1, h2, _⟩ :=
    Do_always_retryable f s [] (by decide) fuel
      (by simpa [applyOpts, newDefaultConfig] using hfuel) hretry
  exact ⟨r, h1, by simpa [applyOpts, newDefaultConfig] using h2⟩

/-- C7, witness: the unit of `TestUnWraps`. -/
theorem C7_default_three_attempts_witness :
    (applyOpts []).maxAttempts = 3 ∧
    ∃ r, Do 3 (always (RetryableError (GoError.plain 1))) () [] = some r ∧ r.calls = 3 :=
  C7_default_three_attempts (always (RetryableError (GoError.plain 1))) ()
    (fun _ => rfl) 3 (by decide)

/-! ## The claims on the dispatcher -/

/-- C8, as amended: each of the three loops whose ticker interval is
positive, started on any store with any unit of work, as long as the
error channel takes every error that its cycles send, has run its unit
once when it sits in its first wait, runs one cycle plus one per tick
taken before shutdown whatever the cycles returned, and has sent on the
error channel exactly the errors of those cycles, in order. -/
theorem C8_loops_run_one_cycle_per_tick {σ : Type} (d : Dispatcher σ) (s : σ)
    (selects : List SelectCase) (doneChan : Chan) (roomP roomU roomC : Nat)
    (hP : 0 < d.settings.ProcessInterval)
    (hU : 0 < d.settings.LockCheckerInterval)
    (hC : 0 < d.settings.CleanupWorkerInterval)
    (hroomP : (cycleErrors d.recordProcessor.ProcessRecords s
      (1 + ticksTaken selects)).length ≤ roomP)
    (hroomU : (cycleErrors d.recordUnlocker.UnlockExpiredMessages s
      (1 + ticksTaken selects)).length ≤ roomU)
    (hroomC : (cycleErrors d.recordCleaner.RemoveExpiredMessages s
      (1 + ticksTaken selects)).length ≤ roomC) :
    (∃ r0 r, runRecordProcessor d roomP doneChan [] s = some r0 ∧ r0.cycles = 1 ∧
      r0.status = LoopStatus.waiting ∧
      runRecordProcessor d roomP doneChan selects s = some r ∧
      r.cycles = 1 + ticksTaken selects ∧
      r.errChan = cycleErrors d.recordProcessor.ProcessRecords s (1 + ticksTaken selects) ∧
      r.status = (if SelectCase.done ∈ selects ∧ (doneChan.recv).isSome = true
        then LoopStatus.returned else LoopStatus.waiting)) ∧
    (∃ r0 r, runRecordUnlocker d roomU doneChan [] s = some r0 ∧ r0.cycles = 1 ∧
      r0.status = LoopStatus.waiting ∧
      runRecordUnlocker d roomU doneChan selects s = some r ∧
      r.cycles = 1 + ticksTaken selects ∧
      r.errChan = cycleErrors d.recordUnlocker.UnlockExpiredMessages s (1 + ticksTaken selects) ∧
      r.status = (if SelectCase.done ∈ selects ∧ (doneChan.recv).isSome = true
        then LoopStatus.returned else LoopStatus.waiting)) ∧
    (∃ r0 r, runRecordCleaner d roomC doneChan [] s = some r0 ∧ r0.cycles = 1 ∧
      r0.status = LoopStatus.waiting ∧
      runRecordCleaner d roomC doneChan selects s = some r ∧
      r.cycles = 1 + ticksTaken selects ∧
      r.errChan = cycleErrors d.recordCleaner.RemoveExpiredMessages s (1 + ticksTaken selects) ∧
      r.status = (if SelectCase.done ∈ selects ∧ (doneChan.recv).isSome = true
        then LoopStatus.returned else LoopStatus.waiting)) := by
  refine ⟨?_, ?_, ?_⟩
  · have h0room : (cycleErrors d.recordProcessor.ProcessRecords s (1 + ticksTaken [])).length
        ≤ roomP := by
      refine le_trans ?_ hroomP
      rw [ticksTaken_nil, Nat.add_comm 1 0, Nat.add_comm 1 (ticksTaken selects),
        cycleErrors_succ, cycleErrors_succ, cycleErrors_zero]
      simp
    obtain ⟨h0, _, h0s, _⟩ := loop_spec d.recordProcessor.ProcessRecords doneChan
      (processorLoop d doneChan)
      (processorLoop_eq d doneChan) [] (LoopRun.start s roomP) h0room
    obtain ⟨h1, h2, h3, _⟩ := loop_spec d.recordProcessor.ProcessRecords doneChan
      (processorLoop d doneChan)
      (processorLoop_eq d doneChan) selects (LoopRun.start s roomP) hroomP
    exact ⟨processorLoop d doneChan [] (LoopRun.start s roomP),
      processorLoop d doneChan selects (LoopRun.start s roomP),
      by simp [runRecordProcessor, NewTicker_pos hP],
      by simpa [LoopRun.start, ticksTaken_nil] using h0,
      by simpa using h0s,
      by simp [runRecordProcessor, NewTicker_pos hP],
      by simpa [LoopRun.start] using h1, by simpa [LoopRun.start] using h2, h3⟩
  · have h0room : (cycleErrors d.recordUnlocker.UnlockExpiredMessages s (1 + ticksTaken [])).length
        ≤ roomU := by
      refine le_trans ?_ hroomU
      rw [ticksTaken_nil, Nat.add_comm 1 0, Nat.add_comm 1 (ticksTaken selects),
        cycleErrors_succ, cycleErrors_succ, cycleErrors_zero]
      simp
    obtain ⟨h0, _, h0s, _⟩ := loop_spec d.recordUnlocker.UnlockExpiredMessages doneChan
      (unlockerLoop d doneChan)
      (unlockerLoop_eq d doneChan) [] (LoopRun.start s roomU) h0room
    obtain ⟨h1, h2, h3, _⟩ := loop_spec d.recordUnlocker.UnlockExpiredMessages doneChan
      (unlockerLoop d doneChan)
      (unlockerLoop_eq d doneChan) selects (LoopRun.start s roomU) hroomU
    exact ⟨unlockerLoop d doneChan [] (LoopRun.start s roomU),
      unlockerLoop d doneChan selects (LoopRun.start s roomU),
      by simp [runRecordUnlocker, NewTicker_pos hU],
      by simpa [LoopRun.start, ticksTaken_nil] using h0,
      by simpa using h0s,
      by simp [runRecordUnlocker, NewTicker_pos hU],
      by simpa [LoopRun.start] using h1, by simpa [LoopRun.start] using h2, h3⟩
  · have h0room : (cycleErrors d.recordCleaner.RemoveExpiredMessages s (1 + ticksTaken [])).length
        ≤ roomC := by
      refine le_trans ?_ hroomC
      rw [ticksTaken_nil, Nat.add_comm 1 0, Nat.add_comm 1 (ticksTaken selects),
        cycleErrors_succ, cycleErrors_succ, cycleErrors_zero]
      simp
    obtain ⟨h0, _, h0s, _⟩ := loop_spec d.recordCleaner.RemoveExpiredMessages doneChan
      (cleanerLoop d doneChan)
      (cleanerLoop_eq d doneChan) [] (LoopRun.start s roomC) h0room
    obtain ⟨h1, h2, h3, _⟩ := loop_spec d.recordCleaner.RemoveExpiredMessages doneChan
      (cleanerLoop d doneChan)
      (cleanerLoop_eq d doneChan) selects (LoopRun.start s roomC) hroomC
    exact ⟨cleanerLoop d doneChan [] (LoopRun.start s roomC),
      cleanerLoop d doneChan selects (LoopRun.start s roomC),
      by simp [runRecordCleaner, NewTicker_pos hC],
      by simpa [LoopRun.start, ticksTaken_nil] using h0,
      by simpa using h0s,
      by simp [runRecordCleaner, NewTicker_pos hC],
      by simpa [LoopRun.start] using h1, by simpa [LoopRun.start] using h2, h3⟩

/-- C8, witness: the scripted dispatcher on a store whose cycles fail,
succeed, fail, with an error channel that takes two values, against two
ticks and then the shutdown. -/
theorem C8_loops_run_one_cycle_per_tick_witness :
    0 < scriptDispatcher.settings.ProcessInterval ∧
    0 < scriptDispatcher.settings.LockCheckerInterval ∧
    0 < scriptDispatcher.settings.CleanupWorkerInterval ∧
    (cycleErrors scriptDispatcher.recordProcessor.ProcessRecords
      [GoError.plain 1, GoError.nil, GoError.plain 3]
      (1 + ticksTaken [SelectCase.tick, SelectCase.tick, SelectCase.done])).length ≤ 2 ∧
    (∃ r0 r, runRecordProcessor scriptDispatcher 2 (Chan.mk 1 1 false) []
        [GoError.plain 1, GoError.nil, GoError.plain 3] = some r0 ∧ r0.cycles = 1 ∧
      r0.status = LoopStatus.waiting ∧
      runRecordProcessor scriptDispatcher 2 (Chan.mk 1 1 false)
        [SelectCase.tick, SelectCase.tick, SelectCase.done]
        [GoError.plain 1, GoError.nil, GoError.plain 3] = some r ∧
      r.cycles = 1 + ticksTaken [SelectCase.tick, SelectCase.tick, SelectCase.done] ∧
      r.errChan = cycleErrors scriptDispatcher.recordProcessor.ProcessRecords
        [GoError.plain 1, GoError.nil, GoError.plain 3]
        (1 + ticksTaken [SelectCase.tick, SelectCase.tick, SelectCase.done]) ∧
      r.status = (if SelectCase.done ∈ [SelectCase.tick, SelectCase.tick, SelectCase.done] ∧
          ((Chan.mk 1 1 false).recv).isSome = true
        then LoopStatus.returned else LoopStatus.waiting)) ∧
    (∃ r0 r, runRecordUnlocker scriptDispatcher 2 (Chan.mk 1 1 false) []
        [GoError.plain 1, GoError.nil, GoError.plain 3] = some r0 ∧ r0.cycles = 1 ∧
      r0.status = LoopStatus.waiting ∧
      runRecordUnlocker scriptDispatcher 2 (Chan.mk 1 1 false)
        [SelectCase.tick, SelectCase.tick, SelectCase.done]
        [GoError.plain 1, GoError.nil, GoError.plain 3] = some r ∧
      r.cycles = 1 + ticksTaken [SelectCase.tick, SelectCase.tick, SelectCase.done] ∧
      r.errChan = cycleErrors scriptDispatcher.recordUnlocker.UnlockExpiredMessages
        [GoError.plain 1, GoError.nil, GoError.plain 3]
        (1 + ticksTaken [SelectCase.tick, SelectCase.tick, SelectCase.done]) ∧
      r.status = (if SelectCase.done ∈ [SelectCase.tick, SelectCase.tick, SelectCase.done] ∧
          ((Chan.mk 1 1 false).recv).isSome = true
        then LoopStatus.returned else LoopStatus.waiting)) ∧
    (∃ r0 r, runRecordCleaner scriptDispatcher 2 (Chan.mk 1 1 false) []
        [GoError.plain 1, GoError.nil, GoError.plain 3] = some r0 ∧ r0.cycles = 1 ∧
      r0.status = LoopStatus.waiting ∧
      runRecordCleaner scriptDispatcher 2 (Chan.mk 1 1 false)
        [SelectCase.tick, SelectCase.tick, SelectCase.done]
        [GoError.plain 1, GoError.nil, GoError.plain 3] = some r ∧
      r.cycles = 1 + ticksTaken [SelectCase.tick, SelectCase.tick, SelectCase.done] ∧
      r.errChan = cycleErrors scriptDispatcher.recordCleaner.RemoveExpiredMessages
        [GoError.plain 1, GoError.nil, GoError.plain 3]
        (1 + ticksTaken [SelectCase.tick, SelectCase.tick, SelectCase.done]) ∧
      r.status = (if SelectCase.done ∈ [SelectCase.tick, SelectCase.tick, SelectCase.done] ∧
          ((Chan.mk 1 1 false).recv).isSome = true
        then LoopStatus.returned else LoopStatus.waiting)) :=
  ⟨by decide, by decide, by decide, by decide,
   C8_loops_run_one_cycle_per_tick scriptDispatcher
     [GoError.plain 1, GoError.nil, GoError.plain 3]
     [SelectCase.tick, SelectCase.tick, SelectCase.done] (Chan.mk 1 1 false) 2 2 2
     (by decide) (by decide) (by decide) (by decide) (by decide) (by decide)⟩

/-- C8, counterexample: with the zero value of `DispatcherSettings` each
of the three loops panics in `time.NewTicker` before it runs its unit;
and with positive intervals and an error channel that takes no value, a
loop whose first cycle fails stays in the send of that error: against a
tick and then the shutdown it has run 1 cycle, not 2, and has not
returned. -/
theorem C8_counterexample_panic_and_blocked_send :
    (runRecordProcessor zeroSettingsDispatcher 5 (Chan.make 1) [] [GoError.plain 1] = none ∧
      runRecordUnlocker zeroSettingsDispatcher 5 (Chan.make 1) [] [GoError.plain 1] = none ∧
      runRecordCleaner zeroSettingsDispatcher 5 (Chan.make 1) [] [GoError.plain 1] = none) ∧
    (ticksTaken [SelectCase.tick, SelectCase.done] = 1 ∧
      ∃ r, runRecordProcessor scriptDispatcher 0 (Chan.mk 1 1 false)
          [SelectCase.tick, SelectCase.done] [GoError.plain 1, GoError.nil] = some r ∧
        r.cycles = 1 ∧ r.cycles ≠ 1 + ticksTaken [SelectCase.tick, SelectCase.done] ∧
        r.errChan = [] ∧ r.status = LoopStatus.sending) :=
  ⟨⟨rfl, rfl, rfl⟩, rfl, _, rfl, rfl, by decide, rfl, rfl⟩

/-- C9: once `Run` has started, a shutdown signal on `doneChan` (a value to
receive, or the channel closed) lets the first goroutine run to its end
and leaves one value on each of the three stop channels; and each loop
that, without the signal, sits waiting in its `select` returns when the
signal is there and that `select` takes the done case, with the same
number of cycles, the same errors sent and the same store: it starts no
new cycle. -/
theorem C9_shutdown_reaches_idle_loops {σ : Type} (d : Dispatcher σ)
    (doneChan quiet : Chan)
    (hsignal : (doneChan.recv).isSome = true) (hquiet : (quiet.recv).isSome = false)
    (sP sU sC : σ) (roomP roomU roomC : Nat)
    (preP preU preC restP restU restC : List SelectCase) :
    ((d.Run doneChan
        ⟨sP, roomP, preP ++ SelectCase.done :: restP⟩
        ⟨sU, roomU, preU ++ SelectCase.done :: restU⟩
        ⟨sC, roomC, preC ++ SelectCase.done :: restC⟩).signals
      = ⟨Chan.mk 1 1 false, Chan.mk 1 1 false, Chan.mk 1 1 false, true⟩) ∧
    (∀ r0,
      (d.Run quiet ⟨sP, roomP, preP⟩ ⟨sU, roomU, preU⟩ ⟨sC, roomC, preC⟩).processor = some r0 →
      r0.status = LoopStatus.waiting →
      ∃ r1, (d.Run doneChan
          ⟨sP, roomP, preP ++ SelectCase.done :: restP⟩
          ⟨sU, roomU, preU ++ SelectCase.done :: restU⟩
          ⟨sC, roomC, preC ++ SelectCase.done :: restC⟩).processor = some r1 ∧
        r1.status = LoopStatus.returned ∧ r1.cycles = r0.cycles ∧
        r1.errChan = r0.errChan ∧ r1.store = r0.store) ∧
    (∀ r0,
      (d.Run quiet ⟨sP, roomP, preP⟩ ⟨sU, roomU, preU⟩ ⟨sC, roomC, preC⟩).unlocker = some r0 →
      r0.status = LoopStatus.waiting →
      ∃ r1, (d.Run doneChan
          ⟨sP, roomP, preP ++ SelectCase.done :: restP⟩
          ⟨sU, roomU, preU ++ SelectCase.done :: restU⟩
          ⟨sC, roomC, preC ++ SelectCase.done :: restC⟩).unlocker = some r1 ∧
        r1.status = LoopStatus.returned ∧ r1.cycles = r0.cycles ∧
        r1.errChan = r0.errChan ∧ r1.store = r0.store) ∧
    (∀ r0,
      (d.Run quiet ⟨sP, roomP, preP⟩ ⟨sU, roomU, preU⟩ ⟨sC, roomC, preC⟩).cleaner = some r0 →
      r0.status = LoopStatus.waiting →
      ∃ r1, (d.Run doneChan
          ⟨sP, roomP, preP ++ SelectCase.done :: restP⟩
          ⟨sU, roomU, preU ++ SelectCase.done :: restU⟩
          ⟨sC, roomC, preC ++ SelectCase.done :: restC⟩).cleaner = some r1 ∧
        r1.status = LoopStatus.returned ∧ r1.cycles = r0.cycles ∧
        r1.errChan = r0.errChan ∧ r1.store = r0.store) := by
  have hfs := fanOut_signalled hsignal
  have hfq := fanOut_quiet hquiet
  refine ⟨?_, ?_, ?_, ?_⟩
  · simp [Dispatcher.Run, hfs]
  · intro r0 h0 hw
    by_cases hpos : d.settings.ProcessInterval ≤ 0
    · simp [Dispatcher.Run, runRecordProcessor, NewTicker, hpos] at h0
    · have h0' : processorLoop d (Chan.make 1) preP (LoopRun.start sP roomP) = r0 := by
        simpa [Dispatcher.Run, runRecordProcessor, NewTicker, hpos, hfq] using h0
      subst h0'
      have hstop := loop_stops_in_idle_wait d.recordProcessor.ProcessRecords
        (Chan.make 1) (Chan.mk 1 1 false)
        rfl rfl (processorLoop d (Chan.make 1)) (processorLoop d (Chan.mk 1 1 false))
        (processorLoop_eq d (Chan.make 1)) (processorLoop_eq d (Chan.mk 1 1 false))
        preP restP (LoopRun.start sP roomP) hw
      refine ⟨{ processorLoop d (Chan.make 1) preP (LoopRun.start sP roomP) with
        status := LoopStatus.returned }, ?_, rfl, rfl, rfl, rfl⟩
      simp [Dispatcher.Run, runRecordProcessor, NewTicker, hpos, hfs, hstop]
  · intro r0 h0 hw
    by_cases hpos : d.settings.LockCheckerInterval ≤ 0
    · simp [Dispatcher.Run, runRecordUnlocker, NewTicker, hpos] at h0
    · have h0' : unlockerLoop d (Chan.make 1) preU (LoopRun.start sU roomU) = r0 := by
        simpa [Dispatcher.Run, runRecordUnlocker, NewTicker, hpos, hfq] using h0
      subst h0'
      have hstop := loop_stops_in_idle_wait d.recordUnlocker.UnlockExpiredMessages
        (Chan.make 1) (Chan.mk 1 1 false)
        rfl rfl (unlockerLoop d (Chan.make 1)) (unlockerLoop d (Chan.mk 1 1 false))
        (unlockerLoop_eq d (Chan.make 1)) (unlockerLoop_eq d (Chan.mk 1 1 false))
        preU restU (LoopRun.start sU roomU) hw
      refine ⟨{ unlockerLoop d (Chan.make 1) preU (LoopRun.start sU roomU) with
        status := LoopStatus.returned }, ?_, rfl, rfl, rfl, rfl⟩
      simp [Dispatcher.Run, runRecordUnlocker, NewTicker, hpos, hfs, hstop]
  · intro r0 h0 hw
    by_cases hpos : d.settings.CleanupWorkerInterval ≤ 0
    · simp [Dispatcher.Run, runRecordCleaner, NewTicker, hpos] at h0
    · have h0' : cleanerLoop d (Chan.make 1) preC (LoopRun.start sC roomC) = r0 := by
        simpa [Dispatcher.Run, runRecordCleaner, NewTicker, hpos, hfq] using h0
      subst h0'
      have hstop := loop_stops_in_idle_wait d.recordCleaner.RemoveExpiredMessages
        (Chan.make 1) (Chan.mk 1 1 false)
        rfl rfl (cleanerLoop d (Chan.make 1)) (cleanerLoop d (Chan.mk 1 1 false))
        (cleanerLoop_eq d (Chan.make 1)) (cleanerLoop_eq d (Chan.mk 1 1 false))
        preC restC (LoopRun.start sC roomC) hw
      refine ⟨{ cleanerLoop d (Chan.make 1) preC (LoopRun.start sC roomC) with
        status := LoopStatus.returned }, ?_, rfl, rfl, rfl, rfl⟩
      simp [Dispatcher.Run, runRecordCleaner, NewTicker, hpos, hfs, hstop]

/-- C9, witness: the scripted dispatcher with `doneChan` closed; the
processor, two cycles run and waiting in its `select` after one tick,
returns with two cycles run. -/
theorem C9_shutdown_reaches_idle_loops_witness :
    ((Chan.mk 0 0 true).recv).isSome = true ∧ ((Chan.make 0).recv).isSome = false ∧
    (scriptDispatcher.Run (Chan.mk 0 0 true)
        ⟨[GoError.plain 1, GoError.nil], 1, [SelectCase.tick] ++ SelectCase.done :: []⟩
        ⟨[], 0, [] ++ SelectCase.done :: []⟩
        ⟨[], 0, [] ++ SelectCase.done :: []⟩).signals
      = ⟨Chan.mk 1 1 false, Chan.mk 1 1 false, Chan.mk 1 1 false, true⟩ ∧
    ∃ r0 r1,
      (scriptDispatcher.Run (Chan.make 0)
        ⟨[GoError.plain 1, GoError.nil], 1, [SelectCase.tick]⟩
        ⟨[], 0, []⟩ ⟨[], 0, []⟩).processor = some r0 ∧
      r0.status = LoopStatus.waiting ∧ r0.cycles = 2 ∧
      (scriptDispatcher.Run (Chan.mk 0 0 true)
        ⟨[GoError.plain 1, GoError.nil], 1, [SelectCase.tick] ++ SelectCase.done :: []⟩
        ⟨[], 0, [] ++ SelectCase.done :: []⟩
        ⟨[], 0, [] ++ SelectCase.done :: []⟩).processor = some r1 ∧
      r1.status = LoopStatus.returned ∧ r1.cycles = r0.cycles ∧
      r1.errChan = r0.errChan ∧ r1.store = r0.store := by
  have h := C9_shutdown_reaches_idle_loops scriptDispatcher (Chan.mk 0 0 true) (Chan.make 0)
    (by decide) (by decide) [GoError.plain 1, GoError.nil] [] [] 1 0 0
    [SelectCase.tick] [] [] [] [] []
  obtain ⟨r1, h1, h2, h3, h4, h5⟩ :=
    h.2.1 ⟨[], 2, [GoError.plain 1], 0, LoopStatus.waiting⟩ rfl rfl
  exact ⟨by decide, by decide, h.1, _, r1, rfl, rfl, rfl, h1, h2, h3, h4, h5⟩

/-! ## Termination of the retry engine -/

/-- C10: for every unit of work and every configured maximum N, 0
included, `Do` returns, having invoked the unit at least once and at most
max(1, N) times; and with maximum 0 it does exactly what it does with
maximum 1. -/
theorem C10_terminates_within_bound {σ : Type} (f : RetryableFunc σ) (s : σ)
    (opts : List Option') (hN : (applyOpts opts).maxAttempts < uintSize)
    (fuel : Nat) (hfuel : max 1 (applyOpts opts).maxAttempts ≤ fuel) :
    (∃ r, Do fuel f s opts = some r ∧ 1 ≤ r.calls ∧
      r.calls ≤ max 1 (applyOpts opts).maxAttempts) ∧
    (∀ fuel0, Do fuel0 f s [WithMaxAttempts 0] = Do fuel0 f s [WithMaxAttempts 1]) ∧
    (∀ fuel0, Do fuel0 f s [MaxAttempts 0] = Do fuel0 f s [MaxAttempts 1]) := by
  have h1 : (1 : Nat) % uintSize = 1 := Nat.mod_eq_of_lt uintSize_pos
  refine ⟨?_, ?_, ?_⟩
  · obtain ⟨r, m, h1, h2, h3, _⟩ := Do_spec f s opts hN fuel hfuel
    have hcalls : r.calls = m + 1 := by simp [DoResult.calls, h2]
    exact ⟨r, h1, by omega, by rw [hcalls]; exact h3⟩
  · intro fuel0
    cases fuel0 with
    | zero => rfl
    | succ n => simp [Do, DoLoop, applyOpts, WithMaxAttempts, next, h1]
  · intro fuel0
    cases fuel0 with
    | zero => rfl
    | succ n => simp [Do, DoLoop, applyOpts, MaxAttempts, next, h1]

/-- C10, witness: maximum 0 and a unit that always returns a retryable
error. -/
theorem C10_terminates_within_bound_witness :
    ((applyOpts [WithMaxAttempts 0]).maxAttempts < uintSize) ∧
    (∃ r, Do 1 (always (RetryableError (GoError.plain 1))) () [WithMaxAttempts 0] = some r ∧
      1 ≤ r.calls ∧ r.calls ≤ max 1 (applyOpts [WithMaxAttempts 0]).maxAttempts) ∧
    (∀ fuel0, Do fuel0 (always (RetryableError (GoError.plain 1))) () [WithMaxAttempts 0]
      = Do fuel0 (always (RetryableError (GoError.plain 1))) () [WithMaxAttempts 1]) ∧
    (∀ fuel0, Do fuel0 (always (RetryableError (GoError.plain 1))) () [MaxAttempts 0]
      = Do fuel0 (always (RetryableError (GoError.plain 1))) () [MaxAttempts 1]) :=
  ⟨by decide,
   C10_terminates_within_bound (always (RetryableError (GoError.plain 1))) ()
     [WithMaxAttempts 0] (by decide) 1 (by decide)⟩

end Outbox
